import Mathlib

/-!
Shallow embedding of `src/bostonbot.py` (rBostonBot), a Reddit bot that
aggregates MBTA transit alerts and a weather forecast into one status
comment, upserts that comment into a pinned discussion thread, and sweeps
the moderation queue for Crowd-Control removals.

Python strings are Lean `String`; Python ints are Lean `Int`/`Nat`;
a Python function that may raise is `Except Unit`-valued; the process-level
side effects of `retry_operation` (attempts, `time.sleep(60)` calls,
`exit()`) are reified as an event trace and an outcome value.
-/

/-- Python's `str.startswith` on character lists: does `hay` start with `needle`? -/
def startsWithL : List Char → List Char → Bool
  | _, [] => true
  | [], _ :: _ => false
  | c :: cs, d :: ds => c == d && startsWithL cs ds

/-- Python's `needle in hay` substring test on character lists. -/
def containsSubL : List Char → List Char → Bool
  | [], needle => needle.isEmpty
  | c :: cs, needle => startsWithL (c :: cs) needle || containsSubL cs needle

/-- Python's `needle in hay` on strings. -/
def strContains (hay needle : String) : Bool :=
  containsSubL hay.toList needle.toList

/-- Python's `str.lower()`. -/
def strLower (s : String) : String :=
  String.mk (s.toList.map Char.toLower)

theorem startsWithL_append_self (n r : List Char) : startsWithL (n ++ r) n = true := by
  induction n with
  | nil => cases r <;> rfl
  | cons d ds ih => simp [startsWithL, ih]

theorem containsSubL_nil_needle (hay : List Char) : containsSubL hay [] = true := by
  cases hay <;> simp [containsSubL, startsWithL, List.isEmpty]

theorem containsSubL_append_self (n r : List Char) : containsSubL (n ++ r) n = true := by
  cases n with
  | nil => simpa using containsSubL_nil_needle r
  | cons d ds =>
    simp only [List.cons_append, containsSubL]
    have h : startsWithL ((d :: ds) ++ r) (d :: ds) = true :=
      startsWithL_append_self (d :: ds) r
    simp only [List.cons_append] at h
    simp [h]

/-- `marker in (marker ++ rest)` always holds. -/
theorem strContains_append_left (n r : String) : strContains (n ++ r) n = true := by
  show containsSubL (n ++ r).toList n.toList = true
  have h : (n ++ r).toList = n.toList ++ r.toList := by
    cases n; cases r; rfl
  rw [h]
  exact containsSubL_append_self _ _

/-! ## Alert Fetcher (`get_mbta_delays`, bostonbot.py lines 42-71) -/

/-- One MBTA alert's `attributes` object as consumed by `get_mbta_delays`. -/
structure Alert where
  header : String
  service_effect : String
  severity : Int
  timeframe : String
deriving DecidableEq, Repr

/-- The filter on line 65: `severity >= min_severity and "change" not in service_effect.lower()`. -/
def qualifies (min_severity : Int) (a : Alert) : Bool :=
  decide (min_severity ≤ a.severity) &&
    !(strContains (strLower a.service_effect) "change")

/-- The Markdown block appended for one qualifying alert (line 66). -/
def alertBlock (a : Alert) : String :=
  "**" ++ a.service_effect ++ "** - " ++ a.timeframe ++ "\n\nCause: " ++ a.header ++ "\n\n"

/-- The `for alert in data["data"]` accumulation loop (lines 57-66): each
alert appends its block when it passes the line-65 filter, else nothing. -/
def delaysLoop (min_severity : Int) : List Alert → String
  | [] => ""
  | a :: rest =>
    (if qualifies min_severity a then alertBlock a else "") ++ delaysLoop min_severity rest

/-- `get_mbta_delays`, abstracted over the HTTP response: `status` is
`response.status_code` and `data` is the parsed `data` array. Mirrors the
branch structure of lines 53-71 (`if data["data"]:` is Python truthiness,
i.e. non-emptiness). -/
def get_mbta_delays (status : Nat) (data : List Alert) (min_severity : Int) : String :=
  if status = 200 then
    match data with
    | [] => "No current delays on the MBTA."
    | a :: rest => "# Current delays on the MBTA:\n\n" ++ delaysLoop min_severity (a :: rest)
  else
    "Failed to fetch data. Please try again later."

/-- Concatenation of a list of strings, front to back. -/
def concatStrs : List String → String
  | [] => ""
  | s :: ss => s ++ concatStrs ss

theorem string_empty_append (s : String) : "" ++ s = s := by
  cases s
  rfl

theorem delaysLoop_eq_filter (min_severity : Int) (l : List Alert) :
    delaysLoop min_severity l = concatStrs ((l.filter (qualifies min_severity)).map alertBlock) := by
  induction l with
  | nil => rfl
  | cons a rest ih =>
    by_cases h : qualifies min_severity a = true
    · simp [delaysLoop, List.filter, h, concatStrs, ih]
    · simp [delaysLoop, List.filter, h, ih, string_empty_append]

/-! ## Retry Executor (`retry_operation`, bostonbot.py lines 24-39)

The operation is modelled by its per-invocation outcomes `op : Nat → Except
Unit α` (invocation `i` either raises or returns a value).  The executor's
observable behaviour is the outcome plus a trace of events: each attempt,
and each `time.sleep(60)` performed in the `except` branch.  The `for/else`
falls through to `exit()` when every attempt failed; Python's bare `exit()`
raises `SystemExit(None)`, i.e. process status 0, recorded as `exited 0`. -/

/-- Observable events of `retry_operation`: an invocation of the operation,
or a `time.sleep` of the given number of seconds. -/
inductive REvent where
  | attempt : Nat → REvent
  | sleep : Nat → REvent
deriving DecidableEq, Repr

/-- How a `retry_operation` call ends: normal return of the operation's
result, or process termination with the given exit status. -/
inductive RetryOutcome (α : Type) where
  | success : α → RetryOutcome α
  | exited : Nat → RetryOutcome α
deriving DecidableEq, Repr

/-- The `for _ in range(max_retries)` loop of lines 29-39, unrolled from
invocation index `i` with `n` iterations remaining. -/
def retryAux (op : Nat → Except Unit α) : Nat → Nat → RetryOutcome α × List REvent
  | 0, _ => (RetryOutcome.exited 0, [])
  | n + 1, i =>
    match op i with
    | Except.ok a => (RetryOutcome.success a, [REvent.attempt i])
    | Except.error _ =>
      let r := retryAux op n (i + 1)
      (r.1, REvent.attempt i :: REvent.sleep 60 :: r.2)

/-- `retry_operation(operation, max_retries)`. -/
def retry_operation (op : Nat → Except Unit α) (max_retries : Nat) :
    RetryOutcome α × List REvent :=
  retryAux op max_retries 0

/-- The module-level `max_retries = 100` (line 25). -/
def max_retries : Nat := 100

/-- The event trace of `n` consecutive failing invocations starting at
index `i`: attempt, sleep 60, attempt, sleep 60, ... -/
def failTraceFrom : Nat → Nat → List REvent
  | _, 0 => []
  | i, n + 1 => REvent.attempt i :: REvent.sleep 60 :: failTraceFrom (i + 1) n

/-- Is an event an attempt? -/
def isAttempt : REvent → Bool
  | REvent.attempt _ => true
  | REvent.sleep _ => false

/-- Is an event a sleep? -/
def isSleep : REvent → Bool
  | REvent.attempt _ => false
  | REvent.sleep _ => true

theorem retryAux_all_fail (op : Nat → Except Unit α) :
    ∀ (n i : Nat), (∀ j, j < n → op (i + j) = Except.error ()) →
      retryAux op n i = (RetryOutcome.exited 0, failTraceFrom i n) := by
  intro n
  induction n with
  | zero => intro i _; rfl
  | succ m ih =>
    intro i h
    have h0 : op i = Except.error () := by
      have := h 0 (Nat.succ_pos m)
      simpa using this
    have hrec : retryAux op m (i + 1) = (RetryOutcome.exited 0, failTraceFrom (i + 1) m) := by
      apply ih
      intro j hj
      have := h (j + 1) (Nat.succ_lt_succ hj)
      simpa [Nat.add_assoc, Nat.add_comm, Nat.add_left_comm] using this
    simp [retryAux, h0, hrec, failTraceFrom]

theorem failTraceFrom_countP_attempt (i n : Nat) :
    (failTraceFrom i n).countP (fun e => isAttempt e) = n := by
  induction n generalizing i with
  | zero => rfl
  | succ m ih =>
    simp only [failTraceFrom, List.countP_cons]
    rw [ih]
    simp [isAttempt]

theorem failTraceFrom_countP_sleep (i n : Nat) :
    (failTraceFrom i n).countP (fun e => isSleep e) = n := by
  induction n generalizing i with
  | zero => rfl
  | succ m ih =>
    simp only [failTraceFrom, List.countP_cons]
    rw [ih]
    simp [isSleep]

theorem failTraceFrom_getLast (i n : Nat) (h : 0 < n) :
    (failTraceFrom i n).getLast? = some (REvent.sleep 60) := by
  induction n generalizing i with
  | zero => exact absurd h (Nat.lt_irrefl 0)
  | succ m ih =>
    cases m with
    | zero => rfl
    | succ k =>
      have := ih (i := i + 1) (Nat.succ_pos k)
      simp only [failTraceFrom]
      rw [List.getLast?_cons_cons, List.getLast?_cons_cons]
      simpa [failTraceFrom] using this

theorem retryAux_first_success (op : Nat → Except Unit α) :
    ∀ (k n i : Nat) (a : α), k < n →
      (∀ j, j < k → op (i + j) = Except.error ()) →
      op (i + k) = Except.ok a →
      retryAux op n i =
        (RetryOutcome.success a, failTraceFrom i k ++ [REvent.attempt (i + k)]) := by
  intro k
  induction k with
  | zero =>
    intro n i a hn _ hk
    cases n with
    | zero => exact absurd hn (Nat.lt_irrefl 0)
    | succ m =>
      simp only [Nat.add_zero] at hk
      simp [retryAux, hk, failTraceFrom]
  | succ t ih =>
    intro n i a hn h0 hk
    cases n with
    | zero => exact absurd hn (Nat.not_lt_zero _)
    | succ m =>
      have hi : op i = Except.error () := by
        have := h0 0 (Nat.succ_pos t)
        simpa using this
      have hrec : retryAux op m (i + 1) =
          (RetryOutcome.success a, failTraceFrom (i + 1) t ++ [REvent.attempt (i + 1 + t)]) := by
        apply ih m (i + 1) a (Nat.lt_of_succ_lt_succ hn)
        · intro j hj
          have := h0 (j + 1) (Nat.succ_lt_succ hj)
          simpa [Nat.add_assoc, Nat.add_comm, Nat.add_left_comm] using this
        · have heq : i + 1 + t = i + (t + 1) := by omega
          rw [heq]
          exact hk
      have heq : i + (t + 1) = i + 1 + t := by omega
      simp [retryAux, hi, hrec, failTraceFrom, heq]

/-! ## The cycle body (`main_logic`, bostonbot.py lines 235-271)

`main_logic`'s entire body sits inside `try: ... except Exception as e:
logger.error(...)` (lines 236-271): whatever the inner steps do, the
function returns normally.  We model the inner steps' combined outcome as a
single `Except Unit Unit` value and `main_logic` as the wrapper that
absorbs any exception. -/

/-- `main_logic`'s top-level `try/except Exception` wrapper: an inner
outcome that raised is caught and logged, and the call returns `None`. -/
def main_logic (inner : Except Unit Unit) : Except Unit Unit :=
  match inner with
  | Except.ok _ => Except.ok ()
  | Except.error _ => Except.ok ()

theorem main_logic_never_raises (inner : Except Unit Unit) :
    main_logic inner = Except.ok () := by
  cases inner <;> rfl

/-! ## Weather Fetcher AQI mapping (`get_weather`, bostonbot.py lines 159-166) -/

/-- The `aqi_categories` dict lookup with default `"Hazardous"`:
`aqi_categories.get(aqi_us, "Hazardous")`. -/
def aqi_category (aqi_us : Int) : String :=
  if aqi_us = 1 then "Good"
  else if aqi_us = 2 then "Moderate"
  else if aqi_us = 3 then "Unhealthy for Sensitive Groups"
  else if aqi_us = 4 then "Unhealthy"
  else if aqi_us = 5 then "Very Unhealthy"
  else "Hazardous"

/-! ## Thread Locator and Comment Upserter (bostonbot.py lines 85-113 and 235-264)

The subreddit's hot listing is a `List RPost`; each post carries its
stickied flag, title, and (flattened, `replace_more`-expanded) comment
list.  A comment is identified by a platform id `cid` plus its body.
`post.reply(text)` appends a fresh comment to the post's comment list;
`comment.edit(text)` replaces that comment's body in place. -/

/-- A Reddit comment as this bot observes it: platform id and body text. -/
structure RComment where
  cid : Nat
  body : String
deriving DecidableEq, Repr

/-- A Reddit post in the hot listing: stickied flag, title, and its
expanded comment tree flattened to a list (`post.comments.list()`). -/
structure RPost where
  stickied : Bool
  title : String
  comments : List RComment
deriving DecidableEq, Repr

/-- The body marker `"### Boston Status Update ###"` (line 227). -/
def marker : String := "### Boston Status Update ###"

/-- The title test string `"Weekly Discussion Thread"` (lines 92, 108). -/
def weeklyTitle : String := "Weekly Discussion Thread"

/-- `post.stickied and "Weekly Discussion Thread" in post.title`. -/
def isWeeklySticky (p : RPost) : Bool :=
  p.stickied && strContains p.title weeklyTitle

/-- `marker in comment.body`. -/
def markedB (c : RComment) : Bool := strContains c.body marker

/-- Index of the first comment whose body contains the marker (the inner
loop of `check_comment_in_stickied_thread`, lines 110-112). -/
def findMarkedIdx : List RComment → Option Nat
  | [] => none
  | c :: cs =>
    if markedB c then some 0 else (findMarkedIdx cs).map (fun j => j + 1)

/-- `check_comment_in_stickied_thread` (lines 105-113): scan the whole hot
listing; in each weekly sticky, scan its comments for the marker; return
the position `(post index, comment index)` of the first match, else
`none`. -/
def check_comment_in_stickied_thread : List RPost → Option (Nat × Nat)
  | [] => none
  | p :: ps =>
    match (if isWeeklySticky p then findMarkedIdx p.comments else none) with
    | some j => some (0, j)
    | none => (check_comment_in_stickied_thread ps).map (fun q => (q.1 + 1, q.2))

/-- The `for post in hot_posts` loop of `post_comment_in_daily_discussion`
(lines 91-96), with `n` posts of the listing still visible (`hot(limit=10)`
gives `n = 10`): reply to the first weekly sticky and stop, else fall
through returning the listing unchanged with `False`. -/
def postLoop (c : RComment) : Nat → List RPost → List RPost × Bool
  | 0, ps => (ps, false)
  | _ + 1, [] => ([], false)
  | n + 1, p :: ps =>
    if isWeeklySticky p then ({ p with comments := p.comments ++ [c] } :: ps, true)
    else
      let r := postLoop c n ps
      (p :: r.1, r.2)

/-- `post_comment_in_daily_discussion` (lines 85-102): scan
`subreddit.hot(limit=10)`; the boolean is `suitable_sticky_found`. -/
def post_comment_in_daily_discussion (posts : List RPost) (c : RComment) :
    List RPost × Bool :=
  postLoop c 10 posts

/-- Replace the element at index `n` by `f` of it (identity out of range). -/
def updateAt : List α → Nat → (α → α) → List α
  | [], _, _ => []
  | x :: xs, 0, f => f x :: xs
  | x :: xs, n + 1, f => x :: updateAt xs n f

/-- `existing_comment.edit(comment_text)` (line 261) on the comment living
at position `(i, j)` of the listing. -/
def editCommentAt (posts : List RPost) (i j : Nat) (text : String) : List RPost :=
  updateAt posts i
    (fun p => { p with comments := updateAt p.comments j (fun c => { c with body := text }) })

/-- The comment at position `(i, j)` of the listing, if any. -/
def commentAt (posts : List RPost) (i j : Nat) : Option RComment :=
  match posts.get? i with
  | none => none
  | some p => p.comments.get? j

/-- One cycle's upsert step (lines 251-264): look for an existing marked
comment; post a new comment (with fresh platform id `fid`) when none is
found, else edit the found one in place.  The boolean records whether a new
comment was posted. -/
def upsert (posts : List RPost) (fid : Nat) (text : String) : List RPost × Bool :=
  match check_comment_in_stickied_thread posts with
  | none => post_comment_in_daily_discussion posts ⟨fid, text⟩
  | some (i, j) => (editCommentAt posts i j text, false)

/-- The composed comment text of line 248 (timestamp, weather and MBTA
sections are the cycle's computed strings). -/
def compose_comment (current_time_est_str weather_text mbta_delays_text : String) : String :=
  marker ++ ("\n\nLast Update: " ++ (current_time_est_str ++ ("\n\n________________\n\n" ++
    (weather_text ++ ("\n\n________________\n\n" ++ (mbta_delays_text ++
      "\n\n________________\n\n This comment was made by a bot. If the bot is broken please [message the mods](https://www.reddit.com/message/compose/?to=/r/boston) . "))))))

/-- Number of marker-bearing comments in one post. -/
def postMarkedCount (p : RPost) : Nat := p.comments.countP (fun c => markedB c)

/-- Number of marker-bearing comments in the whole listing. -/
def markedCount (posts : List RPost) : Nat := (posts.map postMarkedCount).sum

/-- Total number of comments in the whole listing. -/
def totalComments (posts : List RPost) : Nat :=
  (posts.map (fun p => p.comments.length)).sum

/-- No comment anywhere in the listing contains the marker. -/
def allUnmarked (posts : List RPost) : Bool :=
  posts.all (fun p => p.comments.all (fun c => !markedB c))

/-- Some weekly sticky occurs among the first `n` posts of the listing. -/
def anyWeekly : Nat → List RPost → Bool
  | 0, _ => false
  | _ + 1, [] => false
  | n + 1, p :: ps => isWeeklySticky p || anyWeekly n ps

theorem updateAt_length (l : List α) : ∀ (n : Nat) (f : α → α),
    (updateAt l n f).length = l.length := by
  induction l with
  | nil => intro n f; rfl
  | cons x xs ih =>
    intro n f
    cases n with
    | zero => rfl
    | succ m => simp [updateAt, ih]

theorem updateAt_get_same (l : List α) : ∀ (n : Nat) (f : α → α) (x : α),
    l.get? n = some x → (updateAt l n f).get? n = some (f x) := by
  induction l with
  | nil => intro n f x h; simp at h
  | cons y ys ih =>
    intro n f x h
    cases n with
    | zero =>
      simp at h
      simp [updateAt, h]
    | succ m =>
      simp at h
      simpa [updateAt] using ih m f x (by simpa using h)

theorem findMarkedIdx_none (cs : List RComment)
    (h : cs.all (fun c => !markedB c) = true) : findMarkedIdx cs = none := by
  induction cs with
  | nil => rfl
  | cons c rest ih =>
    simp only [List.all_cons, Bool.and_eq_true, Bool.not_eq_true'] at h
    simp [findMarkedIdx, h.1, ih h.2]

theorem findMarkedIdx_append_marked (cs : List RComment) (c : RComment)
    (hall : cs.all (fun x => !markedB x) = true) (hm : markedB c = true) :
    findMarkedIdx (cs ++ [c]) = some cs.length := by
  induction cs with
  | nil => simp [findMarkedIdx, hm]
  | cons d rest ih =>
    simp only [List.all_cons, Bool.and_eq_true, Bool.not_eq_true'] at hall
    simp [findMarkedIdx, hall.1, ih hall.2]

theorem check_comment_none (posts : List RPost)
    (h : allUnmarked posts = true) :
    check_comment_in_stickied_thread posts = none := by
  induction posts with
  | nil => rfl
  | cons p ps ih =>
    simp only [allUnmarked, List.all_cons, Bool.and_eq_true] at h
    have hfind : findMarkedIdx p.comments = none := findMarkedIdx_none _ h.1
    have hrest : check_comment_in_stickied_thread ps = none := by
      apply ih
      simpa [allUnmarked] using h.2
    by_cases hw : isWeeklySticky p = true
    · simp [check_comment_in_stickied_thread, hw, hfind, hrest]
    · simp [check_comment_in_stickied_thread, hw, hrest]

theorem markedCount_cons (p : RPost) (ps : List RPost) :
    markedCount (p :: ps) = postMarkedCount p + markedCount ps := by
  simp [markedCount]

theorem totalComments_cons (p : RPost) (ps : List RPost) :
    totalComments (p :: ps) = p.comments.length + totalComments ps := by
  simp [totalComments]

theorem postLoop_no_sticky (c : RComment) :
    ∀ (n : Nat) (posts : List RPost), anyWeekly n posts = false →
      postLoop c n posts = (posts, false) := by
  intro n
  induction n with
  | zero => intro posts _; rfl
  | succ m ih =>
    intro posts h
    cases posts with
    | nil => rfl
    | cons p ps =>
      simp only [anyWeekly, Bool.or_eq_false_iff] at h
      simp [postLoop, h.1, ih ps h.2]

theorem postLoop_spec (c : RComment) (hm : markedB c = true) :
    ∀ (n : Nat) (posts : List RPost), allUnmarked posts = true → anyWeekly n posts = true →
      (postLoop c n posts).2 = true ∧
      markedCount (postLoop c n posts).1 = markedCount posts + 1 ∧
      totalComments (postLoop c n posts).1 = totalComments posts + 1 ∧
      ∃ i j, check_comment_in_stickied_thread (postLoop c n posts).1 = some (i, j) ∧
        commentAt (postLoop c n posts).1 i j = some c := by
  intro n
  induction n with
  | zero =>
    intro posts _ h2
    simp [anyWeekly] at h2
  | succ m ih =>
    intro posts h1 h2
    cases posts with
    | nil => simp [anyWeekly] at h2
    | cons p ps =>
      simp only [allUnmarked, List.all_cons, Bool.and_eq_true] at h1
      by_cases hw : isWeeklySticky p = true
      · have hfind : findMarkedIdx (p.comments ++ [c]) = some p.comments.length :=
          findMarkedIdx_append_marked _ _ h1.1 hm
        have hget : (p.comments ++ [c]).get? p.comments.length = some c :=
          List.get?_concat_length _ _
        refine ⟨?_, ?_, ?_, 0, p.comments.length, ?_, ?_⟩
        · simp [postLoop, hw]
        · simp only [postLoop, hw, if_pos]
          rw [markedCount_cons, markedCount_cons]
          simp only [postMarkedCount, List.countP_append]
          simp [List.countP_cons, hm]
          omega
        · simp only [postLoop, hw, if_pos]
          rw [totalComments_cons, totalComments_cons]
          simp
          omega
        · have hw' : isWeeklySticky { p with comments := p.comments ++ [c] } = true := by
            simpa [isWeeklySticky] using hw
          simp [postLoop, hw, check_comment_in_stickied_thread, hw', hfind]
        · simp [postLoop, hw, commentAt, hget]
      · have hrest : anyWeekly m ps = true := by
          simp only [anyWeekly, hw, Bool.false_or] at h2
          exact h2
        have hU : allUnmarked ps = true := by simpa [allUnmarked] using h1.2
        obtain ⟨hb, hmc, htc, i, j, hchk, hcat⟩ := ih ps hU hrest
        have hred : postLoop c (m + 1) (p :: ps) =
            (p :: (postLoop c m ps).1, (postLoop c m ps).2) := by
          simp [postLoop, hw]
        refine ⟨?_, ?_, ?_, i + 1, j, ?_, ?_⟩
        · rw [hred]
          exact hb
        · rw [hred]
          show markedCount (p :: (postLoop c m ps).1) = markedCount (p :: ps) + 1
          rw [markedCount_cons, markedCount_cons, hmc]
          omega
        · rw [hred]
          show totalComments (p :: (postLoop c m ps).1) = totalComments (p :: ps) + 1
          rw [totalComments_cons, totalComments_cons, htc]
          omega
        · rw [hred]
          show check_comment_in_stickied_thread (p :: (postLoop c m ps).1) = some (i + 1, j)
          simp [check_comment_in_stickied_thread, hw, hchk]
        · rw [hred]
          show commentAt (p :: (postLoop c m ps).1) (i + 1) j = some c
          exact hcat

theorem commentAt_editCommentAt (posts : List RPost) (i j : Nat) (t : String) (c : RComment)
    (h : commentAt posts i j = some c) :
    commentAt (editCommentAt posts i j t) i j = some { c with body := t } := by
  unfold commentAt at h
  cases hp : posts.get? i with
  | none => rw [hp] at h; simp at h
  | some p =>
    rw [hp] at h
    have hpost := updateAt_get_same posts i
      (fun q => { q with comments := updateAt q.comments j (fun x => { x with body := t }) }) p hp
    have hcom := updateAt_get_same p.comments j (fun x => { x with body := t }) c h
    unfold commentAt editCommentAt
    rw [hpost]
    exact hcom

theorem totalComments_editCommentAt (posts : List RPost) :
    ∀ (i j : Nat) (t : String),
      totalComments (editCommentAt posts i j t) = totalComments posts := by
  induction posts with
  | nil => intro i j t; rfl
  | cons p ps ih =>
    intro i j t
    cases i with
    | zero =>
      simp only [editCommentAt, updateAt]
      rw [totalComments_cons, totalComments_cons]
      simp [updateAt_length]
    | succ m =>
      simp only [editCommentAt, updateAt]
      rw [totalComments_cons, totalComments_cons]
      have := ih m j t
      simp only [editCommentAt] at this
      omega

theorem countP_updateAt_body (cs : List RComment) :
    ∀ (j : Nat) (t : String) (c : RComment), cs.get? j = some c →
      (updateAt cs j (fun x => { x with body := t })).countP (fun x => markedB x)
          + (if markedB c then 1 else 0)
        = cs.countP (fun x => markedB x) + (if strContains t marker then 1 else 0) := by
  induction cs with
  | nil => intro j t c h; simp at h
  | cons d rest ih =>
    intro j t c h
    cases j with
    | zero =>
      simp only [List.get?_cons_zero, Option.some.injEq] at h
      subst h
      simp only [updateAt, List.countP_cons]
      have hb : markedB { d with body := t } = strContains t marker := rfl
      rw [hb]
      split_ifs <;> omega
    | succ m =>
      rw [List.get?_cons_succ] at h
      have hrec := ih m t c h
      simp only [updateAt, List.countP_cons]
      split_ifs at hrec ⊢ <;> omega

theorem markedCount_editCommentAt (posts : List RPost) :
    ∀ (i j : Nat) (t : String) (c : RComment), commentAt posts i j = some c →
      markedCount (editCommentAt posts i j t) + (if markedB c then 1 else 0)
        = markedCount posts + (if strContains t marker then 1 else 0) := by
  induction posts with
  | nil => intro i j t c h; simp [commentAt] at h
  | cons p ps ih =>
    intro i j t c h
    cases i with
    | zero =>
      have h' : p.comments.get? j = some c := h
      have hred : editCommentAt (p :: ps) 0 j t =
          { p with comments := updateAt p.comments j (fun x => { x with body := t }) } :: ps := rfl
      rw [hred, markedCount_cons, markedCount_cons]
      have hcp := countP_updateAt_body p.comments j t c h'
      simp only [postMarkedCount]
      split_ifs at hcp ⊢ <;> omega
    | succ m =>
      have h' : commentAt ps m j = some c := h
      have hred : editCommentAt (p :: ps) (m + 1) j t = p :: editCommentAt ps m j t := rfl
      rw [hred, markedCount_cons, markedCount_cons]
      have hrec := ih m j t c h'
      split_ifs at hrec ⊢ <;> omega

/-! ## Moderation Sweeper (bostonbot.py lines 194-213)

A modqueue item carries its `fullname` and whether it is a comment
(`isinstance(item, praw.models.Comment)`).  The subreddit's recent
"removecomment" moderation log, as returned by
`item.subreddit.mod.log(limit=10, action="removecomment")`, can differ per
lookup and the lookup can raise, so each queue item is paired with the
outcome of its own log fetch. -/

/-- A moderation-queue item. -/
structure MItem where
  fullname : String
  isComment : Bool
deriving DecidableEq, Repr

/-- One moderation-log entry: `target_fullname` and the acting moderator's
name (`log_entry.mod.name`). -/
structure ModLogEntry where
  target_fullname : String
  modName : String
deriving DecidableEq, Repr

/-- `is_probably_crowd_control` (lines 194-202): a failed log fetch is
caught and yields `False`; otherwise scan the 10 most recent
"removecomment" entries for one targeting this item and actioned by the
`"reddit"` account. -/
def is_probably_crowd_control (modlog : Except Unit (List ModLogEntry)) (item : MItem) : Bool :=
  match modlog with
  | Except.error _ => false
  | Except.ok entries =>
    (entries.take 10).any
      (fun e => e.target_fullname == item.fullname && e.modName == "reddit")

/-- The `for item in subreddit.mod.modqueue(limit=25)` loop (lines
208-212): collect the items marked as spam (`item.mod.remove(spam=True)`)
and the `flagged_count`. -/
def monitorLoop : List (MItem × Except Unit (List ModLogEntry)) → List MItem × Nat
  | [] => ([], 0)
  | (item, res) :: rest =>
    let r := monitorLoop rest
    if item.isComment && is_probably_crowd_control res item then
      (item :: r.1, r.2 + 1)
    else
      r

/-- `monitor_modqueue_for_crowd_control` (lines 205-213): sweep the first
25 modqueue items. -/
def monitor_modqueue_for_crowd_control
    (queue : List (MItem × Except Unit (List ModLogEntry))) : List MItem × Nat :=
  monitorLoop (queue.take 25)

theorem monitorLoop_eq_filter (queue : List (MItem × Except Unit (List ModLogEntry))) :
    monitorLoop queue =
      ((queue.filter (fun x => x.1.isComment && is_probably_crowd_control x.2 x.1)).map Prod.fst,
       (queue.filter (fun x => x.1.isComment && is_probably_crowd_control x.2 x.1)).length) := by
  induction queue with
  | nil => rfl
  | cons x rest ih =>
    obtain ⟨item, res⟩ := x
    by_cases h : (item.isComment && is_probably_crowd_control res item) = true
    · simp [monitorLoop, List.filter, h, ih]
    · simp [monitorLoop, List.filter, h, ih]

/-! ## Further helper lemmas -/

theorem string_toList_append (s t : String) : (s ++ t).toList = s.toList ++ t.toList := by
  cases s; cases t; rfl

theorem compose_comment_unfold (ts w m : String) :
    compose_comment ts w m =
      marker ++ ("\n\nLast Update: " ++ (ts ++ ("\n\n________________\n\n" ++
        (w ++ ("\n\n________________\n\n" ++ (m ++
          "\n\n________________\n\n This comment was made by a bot. If the bot is broken please [message the mods](https://www.reddit.com/message/compose/?to=/r/boston) . ")))))) := rfl

theorem strContains_compose (ts w m : String) :
    strContains (compose_comment ts w m) marker = true := by
  rw [compose_comment_unfold]
  exact strContains_append_left _ _

theorem markedB_compose (cid : Nat) (ts w m : String) :
    markedB ⟨cid, compose_comment ts w m⟩ = true :=
  strContains_compose ts w m

theorem markedCount_zero_of_allUnmarked (posts : List RPost)
    (h : allUnmarked posts = true) : markedCount posts = 0 := by
  induction posts with
  | nil => rfl
  | cons p ps ih =>
    simp only [allUnmarked, List.all_cons, Bool.and_eq_true] at h
    rw [markedCount_cons]
    have h1 : postMarkedCount p = 0 := by
      rw [postMarkedCount, List.countP_eq_zero]
      intro c hc
      have := List.all_eq_true.mp h.1 c hc
      simpa using this
    have h2 : markedCount ps = 0 := ih (by simpa [allUnmarked] using h.2)
    omega

theorem anyWeekly_false_of_all (posts : List RPost)
    (h : posts.all (fun p => !isWeeklySticky p) = true) :
    ∀ n, anyWeekly n posts = false := by
  induction posts with
  | nil => intro n; cases n <;> rfl
  | cons p ps ih =>
    intro n
    simp only [List.all_cons, Bool.and_eq_true, Bool.not_eq_true'] at h
    cases n with
    | zero => rfl
    | succ m =>
      have := ih (by simpa using h.2) m
      simp [anyWeekly, h.1, this]

/-! ## Claim theorems -/

/-- C5: the AQI categorical label of `get_weather` maps 1 to "Good", 2 to
"Moderate", 3 to "Unhealthy for Sensitive Groups", 4 to "Unhealthy", 5 to
"Very Unhealthy", and every other integer (e.g. 0 or 6) to "Hazardous". -/
theorem c5_aqi_category_mapping (n : Int)
    (h : n ≠ 1 ∧ n ≠ 2 ∧ n ≠ 3 ∧ n ≠ 4 ∧ n ≠ 5) :
    aqi_category 1 = "Good" ∧ aqi_category 2 = "Moderate" ∧
    aqi_category 3 = "Unhealthy for Sensitive Groups" ∧
    aqi_category 4 = "Unhealthy" ∧ aqi_category 5 = "Very Unhealthy" ∧
    aqi_category 0 = "Hazardous" ∧ aqi_category 6 = "Hazardous" ∧
    aqi_category n = "Hazardous" := by
  obtain ⟨h1, h2, h3, h4, h5⟩ := h
  refine ⟨rfl, rfl, rfl, rfl, rfl, rfl, rfl, ?_⟩
  simp [aqi_category, h1, h2, h3, h4, h5]

theorem c5_witness :
    (((-2 : Int) ≠ 1 ∧ (-2 : Int) ≠ 2 ∧ (-2 : Int) ≠ 3 ∧ (-2 : Int) ≠ 4 ∧ (-2 : Int) ≠ 5) ∧
      (aqi_category 1 = "Good" ∧ aqi_category 2 = "Moderate" ∧
       aqi_category 3 = "Unhealthy for Sensitive Groups" ∧
       aqi_category 4 = "Unhealthy" ∧ aqi_category 5 = "Very Unhealthy" ∧
       aqi_category 0 = "Hazardous" ∧ aqi_category 6 = "Hazardous" ∧
       aqi_category (-2) = "Hazardous")) :=
  ⟨by decide, c5_aqi_category_mapping (-2) (by decide)⟩

/-- C9: every comment text composed by a cycle begins with the marker
`"### Boston Status Update ###"`, hence any comment the bot posts satisfies
the body-contains-marker predicate of `check_comment_in_stickied_thread`. -/
theorem c9_comment_text_marked (ts w m : String) (cid : Nat) :
    startsWithL (compose_comment ts w m).toList marker.toList = true ∧
    strContains (compose_comment ts w m) marker = true ∧
    markedB ⟨cid, compose_comment ts w m⟩ = true := by
  refine ⟨?_, strContains_compose ts w m, markedB_compose cid ts w m⟩
  rw [compose_comment_unfold, string_toList_append]
  exact startsWithL_append_self _ _

/-- C10: `retry_operation` sleeps 60 seconds after every failed attempt,
including after the final one right before `exit()`: for an operation
failing all `n` attempts the trace holds `n` sleeps (not `n - 1`), and the
final event is a sleep. -/
theorem c10_sleep_after_every_failed_attempt (op : Nat → Except Unit α) (n : Nat)
    (h : ∀ i, i < n → op i = Except.error ()) :
    (retry_operation op n).2.countP (fun e => isSleep e) = n ∧
    (0 < n → (retry_operation op n).2.getLast? = some (REvent.sleep 60)) := by
  have hall : retryAux op n 0 = (RetryOutcome.exited 0, failTraceFrom 0 n) := by
    apply retryAux_all_fail
    intro j hj
    simpa using h j hj
  rw [retry_operation, hall]
  exact ⟨failTraceFrom_countP_sleep 0 n, fun hn => failTraceFrom_getLast 0 n hn⟩

theorem c10_witness :
    ((∀ i, i < 3 → (fun _ => (Except.error () : Except Unit Nat)) i = Except.error ()) ∧
      ((retry_operation (fun _ => (Except.error () : Except Unit Nat)) 3).2.countP
          (fun e => isSleep e) = 3 ∧
        (0 < 3 → (retry_operation (fun _ => (Except.error () : Except Unit Nat)) 3).2.getLast?
          = some (REvent.sleep 60)))) :=
  ⟨fun _ _ => rfl,
   c10_sleep_after_every_failed_attempt (fun _ => (Except.error () : Except Unit Nat)) 3
     (fun _ _ => rfl)⟩

/-- C4: an operation failing on every attempt makes `retry_operation`
terminate the process after exactly `max` attempts with the fixed 60-second
sleep between consecutive attempts; an operation first succeeding on
attempt `k+1 ≤ max` has its result returned with no further attempts. -/
theorem c4_retry_operation_contract (op : Nat → Except Unit α) (maxR : Nat) :
    ((∀ i, i < maxR → op i = Except.error ()) →
      retry_operation op maxR = (RetryOutcome.exited 0, failTraceFrom 0 maxR) ∧
      (retry_operation op maxR).2.countP (fun e => isAttempt e) = maxR) ∧
    (∀ (k : Nat) (a : α), k < maxR → (∀ i, i < k → op i = Except.error ()) →
      op k = Except.ok a →
      retry_operation op maxR =
        (RetryOutcome.success a, failTraceFrom 0 k ++ [REvent.attempt k]) ∧
      (retry_operation op maxR).2.countP (fun e => isAttempt e) = k + 1) := by
  constructor
  · intro h
    have hall : retryAux op maxR 0 = (RetryOutcome.exited 0, failTraceFrom 0 maxR) := by
      apply retryAux_all_fail
      intro j hj
      simpa using h j hj
    rw [retry_operation, hall]
    exact ⟨rfl, failTraceFrom_countP_attempt 0 maxR⟩
  · intro k a hk hfail hok
    have hsucc : retryAux op maxR 0 =
        (RetryOutcome.success a, failTraceFrom 0 k ++ [REvent.attempt (0 + k)]) := by
      apply retryAux_first_success op k maxR 0 a hk
      · intro j hj
        simpa using hfail j hj
      · simpa using hok
    rw [Nat.zero_add] at hsucc
    rw [retry_operation, hsucc]
    refine ⟨rfl, ?_⟩
    rw [List.countP_append, failTraceFrom_countP_attempt]
    rfl

theorem c4_witness :
    (((∀ i, i < 3 → (fun _ => (Except.error () : Except Unit Nat)) i = Except.error ()) ∧
      retry_operation (fun _ => (Except.error () : Except Unit Nat)) 3 =
        (RetryOutcome.exited 0, failTraceFrom 0 3)) ∧
     ((2 : Nat) < 4 ∧
      retry_operation (fun i => if i < 2 then (Except.error () : Except Unit Nat) else Except.ok 7) 4 =
        (RetryOutcome.success 7, failTraceFrom 0 2 ++ [REvent.attempt 2]))) := by
  constructor
  · refine ⟨fun _ _ => rfl, ?_⟩
    exact ((c4_retry_operation_contract (fun _ => (Except.error () : Except Unit Nat)) 3).1
      (fun _ _ => rfl)).1
  · refine ⟨by decide, ?_⟩
    exact ((c4_retry_operation_contract
        (fun i => if i < 2 then (Except.error () : Except Unit Nat) else Except.ok 7) 4).2
      2 7 (by decide) (fun i hi => by interval_cases i <;> rfl) (by rfl)).1

/-- C1 counterexample: a 200 response whose alert list is non-empty but
whose qualifying set is empty (one severity-0 alert under
`min_severity = 1`) makes `get_mbta_delays` return the bare header, not
the literal "No current delays on the MBTA.". -/
theorem c1_counterexample :
    List.filter (qualifies 1) [⟨"Elevator outage", "Station Issue", 0, "ongoing"⟩] = [] ∧
    get_mbta_delays 200 [⟨"Elevator outage", "Station Issue", 0, "ongoing"⟩] 1 =
      "# Current delays on the MBTA:\n\n" ∧
    get_mbta_delays 200 [⟨"Elevator outage", "Station Issue", 0, "ongoing"⟩] 1 ≠
      "No current delays on the MBTA." := by
  refine ⟨by decide, by decide, by decide⟩

/-- C1 amended: under a 200 response the literal "No current delays on the
MBTA." is returned exactly when the raw alert list is empty; a non-empty
list whose qualifying set is empty yields just the header
"# Current delays on the MBTA:\n\n" with no alert blocks. -/
theorem c1_amended_no_qualifying_output (min_severity : Int) (l : List Alert)
    (hq : l.filter (qualifies min_severity) = []) :
    get_mbta_delays 200 [] min_severity = "No current delays on the MBTA." ∧
    (l ≠ [] →
      get_mbta_delays 200 l min_severity = "# Current delays on the MBTA:\n\n" ∧
      get_mbta_delays 200 l min_severity ≠ "No current delays on the MBTA.") := by
  refine ⟨rfl, ?_⟩
  intro hne
  cases l with
  | nil => exact absurd rfl hne
  | cons a rest =>
    have hout : get_mbta_delays 200 (a :: rest) min_severity =
        "# Current delays on the MBTA:\n\n" := by
      show "# Current delays on the MBTA:\n\n" ++ delaysLoop min_severity (a :: rest) =
        "# Current delays on the MBTA:\n\n"
      rw [delaysLoop_eq_filter, hq]
      exact String.append_empty _
    refine ⟨hout, ?_⟩
    rw [hout]
    decide

theorem c1_amended_witness :
    (List.filter (qualifies 1) [⟨"Track work", "Service Note", 0, "weekend"⟩] = [] ∧
      (get_mbta_delays 200 [] 1 = "No current delays on the MBTA." ∧
        (([⟨"Track work", "Service Note", 0, "weekend"⟩] : List Alert) ≠ [] →
          get_mbta_delays 200 [⟨"Track work", "Service Note", 0, "weekend"⟩] 1 =
            "# Current delays on the MBTA:\n\n" ∧
          get_mbta_delays 200 [⟨"Track work", "Service Note", 0, "weekend"⟩] 1 ≠
            "No current delays on the MBTA."))) :=
  ⟨by decide, c1_amended_no_qualifying_output 1 _ (by decide)⟩

/-- C3: under a 200 response an alert's block is included in the output iff
its severity is at least `min_severity` and "change" (case-insensitively)
does not occur in its service-effect text, and the included blocks appear
in input order (the output is the header followed by the blocks of the
filtered sublist in order). -/
theorem c3_alert_inclusion_iff_order (min_severity : Int) (l : List Alert) (h : l ≠ []) :
    get_mbta_delays 200 l min_severity =
      "# Current delays on the MBTA:\n\n" ++
        concatStrs ((l.filter (qualifies min_severity)).map alertBlock) ∧
    ∀ a : Alert, a ∈ l.filter (qualifies min_severity) ↔
      (a ∈ l ∧ min_severity ≤ a.severity ∧
        strContains (strLower a.service_effect) "change" = false) := by
  constructor
  · cases l with
    | nil => exact absurd rfl h
    | cons a rest =>
      show "# Current delays on the MBTA:\n\n" ++ delaysLoop min_severity (a :: rest) = _
      rw [delaysLoop_eq_filter]
  · intro a
    rw [List.mem_filter]
    simp [qualifies, Bool.and_eq_true, decide_eq_true_eq, Bool.not_eq_true', and_assoc]

theorem c3_witness :
    (([⟨"Signal problem", "Red Line Delay", 5, "today"⟩,
       ⟨"Notice", "Schedule Change", 9, "spring"⟩] : List Alert) ≠ [] ∧
     (get_mbta_delays 200
        [⟨"Signal problem", "Red Line Delay", 5, "today"⟩,
         ⟨"Notice", "Schedule Change", 9, "spring"⟩] 1 =
        "# Current delays on the MBTA:\n\n" ++
          concatStrs (((([⟨"Signal problem", "Red Line Delay", 5, "today"⟩,
            ⟨"Notice", "Schedule Change", 9, "spring"⟩] : List Alert).filter
              (qualifies 1))).map alertBlock) ∧
      ∀ a : Alert, a ∈ ([⟨"Signal problem", "Red Line Delay", 5, "today"⟩,
          ⟨"Notice", "Schedule Change", 9, "spring"⟩] : List Alert).filter (qualifies 1) ↔
        (a ∈ ([⟨"Signal problem", "Red Line Delay", 5, "today"⟩,
            ⟨"Notice", "Schedule Change", 9, "spring"⟩] : List Alert) ∧
          (1 : Int) ≤ a.severity ∧
          strContains (strLower a.service_effect) "change" = false))) :=
  ⟨by decide, c3_alert_inclusion_iff_order 1 _ (by decide)⟩

/-- C2 counterexample: a cycle body whose inner steps raise on every
invocation is absorbed by `main_logic`'s own `try/except`, so the retry
executor sees a success on the very first attempt and never re-invokes the
cycle; and even for an operation that does raise on every attempt, the
exhaustion path calls Python's bare `exit()`, i.e. exit status 0, not a
non-zero status. -/
theorem c2_counterexample :
    retry_operation (fun _ => main_logic (Except.error ())) max_retries =
      (RetryOutcome.success (), [REvent.attempt 0]) ∧
    ([REvent.attempt 0].countP (fun e => isAttempt e) = 1) ∧
    (retry_operation (fun _ => (Except.error () : Except Unit Unit)) max_retries).1 =
      RetryOutcome.exited 0 := by
  refine ⟨?_, rfl, ?_⟩
  · rfl
  · have hall : retryAux (fun _ => (Except.error () : Except Unit Unit)) max_retries 0 =
        (RetryOutcome.exited 0, failTraceFrom 0 max_retries) :=
      retryAux_all_fail _ max_retries 0 (fun _ _ => rfl)
    rw [retry_operation, hall]

/-- C2 amended: `main_logic` catches every exception internally, so the
retry executor observes success on the first attempt and never re-invokes
the cycle — a persistently failing cycle body is not retried and the loop
continues; only an operation that itself raises on every attempt exhausts
the executor, which then performs exactly `max_retries` attempts and
terminates the process via `exit()` with status 0 (not non-zero). -/
theorem c2_amended_retry_never_observes_failure (inner : Nat → Except Unit Unit) :
    retry_operation (fun i => main_logic (inner i)) max_retries =
      (RetryOutcome.success (), [REvent.attempt 0]) ∧
    (∀ op : Nat → Except Unit Unit, (∀ i, op i = Except.error ()) →
      retry_operation op max_retries =
        (RetryOutcome.exited 0, failTraceFrom 0 max_retries) ∧
      (retry_operation op max_retries).2.countP (fun e => isAttempt e) = max_retries) := by
  constructor
  · have h0 : main_logic (inner 0) = Except.ok () := main_logic_never_raises (inner 0)
    rw [retry_operation, show max_retries = 99 + 1 from rfl]
    simp [retryAux, h0]
  · intro op h
    have hall : retryAux op max_retries 0 =
        (RetryOutcome.exited 0, failTraceFrom 0 max_retries) :=
      retryAux_all_fail op max_retries 0 (fun j _ => h (0 + j))
    rw [retry_operation, hall]
    exact ⟨rfl, failTraceFrom_countP_attempt 0 max_retries⟩

theorem c2_amended_witness :
    (retry_operation (fun i => main_logic ((fun _ => (Except.error () : Except Unit Unit)) i))
        max_retries = (RetryOutcome.success (), [REvent.attempt 0])) ∧
    ((∀ i : Nat, (fun _ => (Except.error () : Except Unit Unit)) i = Except.error ()) ∧
      retry_operation (fun _ => (Except.error () : Except Unit Unit)) max_retries =
        (RetryOutcome.exited 0, failTraceFrom 0 max_retries)) :=
  ⟨(c2_amended_retry_never_observes_failure (fun _ => Except.error ())).1,
   fun _ => rfl,
   ((c2_amended_retry_never_observes_failure (fun _ => Except.error ())).2
      (fun _ => Except.error ()) (fun _ => rfl)).1⟩

/-- C8: when no post among the scanned hot posts is both stickied and
titled with the marker, `post_comment_in_daily_discussion` skips posting:
the listing is unchanged (no comment created), the found-flag is false, and
(being a total function whose only fallible steps sit inside its
`try/except`) no exception propagates. -/
theorem c8_post_skipped_without_sticky (posts : List RPost) (c : RComment)
    (h : posts.all (fun p => !isWeeklySticky p) = true) :
    post_comment_in_daily_discussion posts c = (posts, false) ∧
    totalComments (post_comment_in_daily_discussion posts c).1 = totalComments posts := by
  have hskip : postLoop c 10 posts = (posts, false) :=
    postLoop_no_sticky c 10 posts (anyWeekly_false_of_all posts h 10)
  exact ⟨hskip, by rw [post_comment_in_daily_discussion, hskip]⟩

theorem c8_witness :
    (([⟨false, "Weekly Discussion Thread", []⟩, ⟨true, "Game Day Thread", []⟩] :
        List RPost).all (fun p => !isWeeklySticky p) = true ∧
     (post_comment_in_daily_discussion
        [⟨false, "Weekly Discussion Thread", []⟩, ⟨true, "Game Day Thread", []⟩]
        ⟨3, "body"⟩ =
        ([⟨false, "Weekly Discussion Thread", []⟩, ⟨true, "Game Day Thread", []⟩], false) ∧
      totalComments (post_comment_in_daily_discussion
        [⟨false, "Weekly Discussion Thread", []⟩, ⟨true, "Game Day Thread", []⟩]
        ⟨3, "body"⟩).1 =
        totalComments [⟨false, "Weekly Discussion Thread", []⟩, ⟨true, "Game Day Thread", []⟩])) :=
  ⟨by decide, c8_post_skipped_without_sticky _ _ (by decide)⟩

/-- C6: in a sweep of the first 25 modqueue items, an item is marked as
spam iff it is a comment and one of the 10 most recent "removecomment"
moderation-log entries targets exactly that item with acting moderator
"reddit"; a failed log lookup counts as not-crowd-control for that item
only, and every one of the first 25 items is still processed (the output is
a filter over all of them). -/
theorem c6_modqueue_sweep_spec (queue : List (MItem × Except Unit (List ModLogEntry))) :
    (monitor_modqueue_for_crowd_control queue).1 =
      ((queue.take 25).filter
        (fun x => x.1.isComment && is_probably_crowd_control x.2 x.1)).map Prod.fst ∧
    (monitor_modqueue_for_crowd_control queue).2 =
      ((queue.take 25).filter
        (fun x => x.1.isComment && is_probably_crowd_control x.2 x.1)).length ∧
    (∀ (res : Except Unit (List ModLogEntry)) (item : MItem),
      is_probably_crowd_control res item = true ↔
        ∃ entries, res = Except.ok entries ∧
          ∃ e ∈ entries.take 10,
            e.target_fullname = item.fullname ∧ e.modName = "reddit") ∧
    (∀ item : MItem, is_probably_crowd_control (Except.error ()) item = false) := by
  refine ⟨?_, ?_, ?_, fun item => rfl⟩
  · rw [monitor_modqueue_for_crowd_control, monitorLoop_eq_filter]
  · rw [monitor_modqueue_for_crowd_control, monitorLoop_eq_filter]
  · intro res item
    cases res with
    | error e => simp [is_probably_crowd_control]
    | ok entries =>
      simp [is_probably_crowd_control, List.any_eq_true, Bool.and_eq_true, beq_iff_eq]

/-- C7: upsert idempotence.  Starting from a listing with no marked
comment and a weekly sticky among the first 10 hot posts, the first cycle
posts exactly one new marker-bearing comment; the second cycle's upsert
edits exactly that comment in place (same platform id, new body) and posts
nothing, leaving exactly one marked comment and an unchanged comment
count. -/
theorem c7_upsert_idempotent (posts : List RPost) (fid fid2 : Nat)
    (t1a t1b t1c t2a t2b t2c : String)
    (hU : allUnmarked posts = true) (hW : anyWeekly 10 posts = true) :
    (upsert posts fid (compose_comment t1a t1b t1c)).2 = true ∧
    markedCount (upsert posts fid (compose_comment t1a t1b t1c)).1 = 1 ∧
    totalComments (upsert posts fid (compose_comment t1a t1b t1c)).1 =
      totalComments posts + 1 ∧
    (upsert (upsert posts fid (compose_comment t1a t1b t1c)).1 fid2
        (compose_comment t2a t2b t2c)).2 = false ∧
    markedCount (upsert (upsert posts fid (compose_comment t1a t1b t1c)).1 fid2
        (compose_comment t2a t2b t2c)).1 = 1 ∧
    totalComments (upsert (upsert posts fid (compose_comment t1a t1b t1c)).1 fid2
        (compose_comment t2a t2b t2c)).1 = totalComments posts + 1 ∧
    ∃ i j, commentAt (upsert (upsert posts fid (compose_comment t1a t1b t1c)).1 fid2
        (compose_comment t2a t2b t2c)).1 i j =
      some ⟨fid, compose_comment t2a t2b t2c⟩ := by
  have hm1 : markedB ⟨fid, compose_comment t1a t1b t1c⟩ = true :=
    markedB_compose fid t1a t1b t1c
  have hs2 : strContains (compose_comment t2a t2b t2c) marker = true :=
    strContains_compose t2a t2b t2c
  have hz : markedCount posts = 0 := markedCount_zero_of_allUnmarked posts hU
  have hchk0 : check_comment_in_stickied_thread posts = none := check_comment_none posts hU
  have hu1 : upsert posts fid (compose_comment t1a t1b t1c) =
      postLoop ⟨fid, compose_comment t1a t1b t1c⟩ 10 posts := by
    unfold upsert
    rw [hchk0]
    rfl
  obtain ⟨hb1, hmc1, htc1, i, j, hchk1, hcat1⟩ :=
    postLoop_spec ⟨fid, compose_comment t1a t1b t1c⟩ hm1 10 posts hU hW
  have hu2 : upsert (postLoop ⟨fid, compose_comment t1a t1b t1c⟩ 10 posts).1 fid2
      (compose_comment t2a t2b t2c) =
      (editCommentAt (postLoop ⟨fid, compose_comment t1a t1b t1c⟩ 10 posts).1 i j
        (compose_comment t2a t2b t2c), false) := by
    unfold upsert
    rw [hchk1]
  rw [hu1, hu2]
  refine ⟨hb1, ?_, ?_, rfl, ?_, ?_, i, j, ?_⟩
  · rw [hmc1, hz]
  · rw [htc1]
  · have hedit := markedCount_editCommentAt
      (postLoop ⟨fid, compose_comment t1a t1b t1c⟩ 10 posts).1 i j
      (compose_comment t2a t2b t2c) ⟨fid, compose_comment t1a t1b t1c⟩ hcat1
    rw [hm1, hs2, hmc1, hz] at hedit
    simp at hedit
    exact hedit
  · show totalComments (editCommentAt _ i j _) = _
    rw [totalComments_editCommentAt, htc1]
  · have hca := commentAt_editCommentAt
      (postLoop ⟨fid, compose_comment t1a t1b t1c⟩ 10 posts).1 i j
      (compose_comment t2a t2b t2c) ⟨fid, compose_comment t1a t1b t1c⟩ hcat1
    simpa using hca

theorem c7_witness :
    (allUnmarked [⟨true, "Weekly Discussion Thread", []⟩] = true ∧
     anyWeekly 10 [⟨true, "Weekly Discussion Thread", []⟩] = true ∧
     ((upsert [⟨true, "Weekly Discussion Thread", []⟩] 1 (compose_comment "t" "w" "m")).2 = true ∧
      markedCount (upsert [⟨true, "Weekly Discussion Thread", []⟩] 1
        (compose_comment "t" "w" "m")).1 = 1 ∧
      totalComments (upsert [⟨true, "Weekly Discussion Thread", []⟩] 1
        (compose_comment "t" "w" "m")).1 =
        totalComments [⟨true, "Weekly Discussion Thread", []⟩] + 1 ∧
      (upsert (upsert [⟨true, "Weekly Discussion Thread", []⟩] 1
          (compose_comment "t" "w" "m")).1 2 (compose_comment "T" "W" "M")).2 = false ∧
      markedCount (upsert (upsert [⟨true, "Weekly Discussion Thread", []⟩] 1
          (compose_comment "t" "w" "m")).1 2 (compose_comment "T" "W" "M")).1 = 1 ∧
      totalComments (upsert (upsert [⟨true, "Weekly Discussion Thread", []⟩] 1
          (compose_comment "t" "w" "m")).1 2 (compose_comment "T" "W" "M")).1 =
        totalComments [⟨true, "Weekly Discussion Thread", []⟩] + 1 ∧
      ∃ i j, commentAt (upsert (upsert [⟨true, "Weekly Discussion Thread", []⟩] 1
          (compose_comment "t" "w" "m")).1 2 (compose_comment "T" "W" "M")).1 i j =
        some ⟨1, compose_comment "T" "W" "M"⟩)) :=
  ⟨by decide, by decide,
   c7_upsert_idempotent [⟨true, "Weekly Discussion Thread", []⟩] 1 2
     "t" "w" "m" "T" "W" "M" (by decide) (by decide)⟩
